import Mathlib

/-!
Verification of the serial-device connection-lifecycle manager.

Shallow embedding of the repository sources:

* `or_event.py` — the multi-event wait primitive (`orify`, `or_set`, `or_clear`,
  `OrEvent`), modelled as a world of boolean event flags with an installed
  `changed` callback per source event.  The monkey-patched `set`/`clear` call
  the event attribute `changed` dynamically, so the effective callback is the
  one installed by the most recent `orify` call; the model records exactly one
  callback slot per source event.
* `threaded.py` — the `request` coordinator, the `EventProtocol` adapter and
  the `KeepAliveReader` worker loop, modelled as pure step functions driven by
  environment inputs (port enumerations, exceptions raised by `serial_for_url`,
  the observed state of the adapter events when a multiplexed wait returns).
-/

namespace SerialDevice

/-! ## Embedding of `or_event.py` -/

/--
World of `threading.Event` objects wired by `orify`/`OrEvent`:
`src` holds the flags of the `n` source events, `derived` the flags of the
`m` events returned by `OrEvent` calls, `watch j` the list of source events
the `j`-th `OrEvent` closure reads, and `cb i` the `changed` callback
currently installed on source event `i` (the index of the `OrEvent` whose
`changed` closure was assigned last, since `orify` overwrites
`event.changed` unconditionally).
-/
structure OrWorld (n m : Nat) where
  src : Fin n → Bool
  derived : Fin m → Bool
  watch : Fin m → List (Fin n)
  cb : Fin n → Option (Fin m)

/--
Value computed by the `changed` closure of `OrEvent` number `j`:
`any(i_event.is_set() for i_event in events)`.
-/
def orValue {n m : Nat} (w : OrWorld n m) (j : Fin m) : Bool :=
  (w.watch j).any fun i => w.src i

/--
Run the `changed` callback installed on source event `i`, if any: the
closure of `OrEvent` number `j` recomputes the flag of derived event `j`
from the current source flags.
-/
def runChanged {n m : Nat} (w : OrWorld n m) (i : Fin n) : OrWorld n m :=
  match w.cb i with
  | some j => { w with derived := Function.update w.derived j (orValue w j) }
  | none => w

/-- Embeds `or_set`: `self._set()` followed by `self.changed()`. -/
def or_set {n m : Nat} (w : OrWorld n m) (i : Fin n) : OrWorld n m :=
  runChanged { w with src := Function.update w.src i true } i

/-- Embeds `or_clear`: `self._clear()` followed by `self.changed()`. -/
def or_clear {n m : Nat} (w : OrWorld n m) (i : Fin n) : OrWorld n m :=
  runChanged { w with src := Function.update w.src i false } i

/--
Embeds `OrEvent(*events)` creating derived event `j`: for each source event
in `events`, `orify` installs the new `changed` closure (overwriting any
previously installed callback); afterwards `changed()` is called once to
set the initial state of the returned event.
-/
def OrEvent {n m : Nat} (w : OrWorld n m) (events : List (Fin n)) (j : Fin m) :
    OrWorld n m :=
  let w1 : OrWorld n m :=
    { w with
      watch := Function.update w.watch j events,
      cb := fun i => if i ∈ events then some j else w.cb i }
  { w1 with derived := Function.update w1.derived j (orValue w1 j) }

/-- A mutation of a source event: `event.set()` or `event.clear()`. -/
inductive EvOp (n : Nat) where
  | set (i : Fin n)
  | clear (i : Fin n)

def applyOp {n m : Nat} (w : OrWorld n m) : EvOp n → OrWorld n m
  | .set i => or_set w i
  | .clear i => or_clear w i

def applyOps {n m : Nat} (w : OrWorld n m) (ops : List (EvOp n)) : OrWorld n m :=
  ops.foldl applyOp w

/--
Invariant for multiplexer `j`: every source event it watches still carries
its `changed` callback, and its derived flag agrees with the OR of its
sources.
-/
def Tracks {n m : Nat} (w : OrWorld n m) (j : Fin m) : Prop :=
  (∀ i ∈ w.watch j, w.cb i = some j) ∧ w.derived j = orValue w j

/-- Empty world used for the concrete overlapping-multiplexer scenario. -/
def emptyWorld : OrWorld 3 2 :=
  { src := fun _ => false
    derived := fun _ => false
    watch := fun _ => []
    cb := fun _ => none }

/--
Concrete scenario of two multiplexers over a shared source event, as in
`KeepAliveReader.run` lines 182-183: source 0 plays `protocol.connected`,
source 1 the shared `close_request`, source 2 `protocol.disconnected`.
First `OrEvent(e0, e1)` builds derived event 0, then `OrEvent(e2, e1)`
builds derived event 1, then the shared source `e1` is set.
-/
def sharedWorld : OrWorld 3 2 :=
  or_set (OrEvent (OrEvent emptyWorld [0, 1] 0) [2, 1] 1) 1

/-! ## Embedding of `EventProtocol` (threaded.py lines 64-95) -/

/--
State of an `EventProtocol` adapter: the `connected` and `disconnected`
events and the recorded port name.
-/
structure EventProtocol where
  connected : Bool
  disconnected : Bool
  port : Option String
deriving DecidableEq

/-- Adapter state right after `__init__`: both events clear, no port. -/
def EventProtocol.init : EventProtocol :=
  { connected := false, disconnected := false, port := none }

/--
Embeds `EventProtocol.connection_made`: records the port of the transport,
sets `connected` and clears `disconnected`.
-/
def connection_made (s : EventProtocol) (portName : String) : EventProtocol :=
  { s with port := some portName, connected := true, disconnected := false }

/--
Embeds `EventProtocol.connection_lost`: clears `connected` and sets
`disconnected` (the exception, if any, is only logged).
-/
def connection_lost (s : EventProtocol) : EventProtocol :=
  { s with connected := false, disconnected := true }

/-- A transport event delivered to the adapter by the reader thread. -/
inductive TransportEvent where
  | made (portName : String)
  | lost
deriving DecidableEq

def protoStep (s : EventProtocol) : TransportEvent → EventProtocol
  | .made p => connection_made s p
  | .lost => connection_lost s

/-- Adapter state after processing a sequence of transport events. -/
def runProto (evs : List TransportEvent) : EventProtocol :=
  evs.foldl protoStep EventProtocol.init

/-! ## Embedding of the module-level `request` (threaded.py lines 22-61) -/

/--
Outcome of a request call.  `raisesTypeError` models the Python 3
`TypeError` raised by evaluating `time.time() - start_time < timeout_s`
when `timeout_s` is `None` (a float is not comparable with `None`).
-/
inductive ReqOutcome (α : Type) where
  | returns (a : α)
  | raisesEmpty (msg : String)
  | raisesTypeError
  | blocksForever
deriving DecidableEq

/--
The response queue is modelled by the arrival tick of its first item (and
the item itself), if any item ever arrives; ticks are measured from the
moment the response wait begins.  `queueNonempty` is the value of
`not response_queue.empty()` at a given tick.
-/
def queueNonempty {α : Type} (arrival : Option (Nat × α)) (now : Nat) : Bool :=
  match arrival with
  | some (t, _) => decide (t ≤ now)
  | none => false

/--
Embeds `response_queue.get(timeout=timeout_s)` with the `queue.Empty`
handler of lines 50-53: with `timeout_s = None` it blocks until an item is
available (forever when none ever arrives); with a finite timeout it
returns the first item when it arrives in time and otherwise raises
`queue.Empty` with the message of line 53.
-/
def blockingGet {α : Type} (arrival : Option (Nat × α)) (timeout_s : Option Nat) :
    ReqOutcome α :=
  match arrival, timeout_s with
  | some (_, x), none => .returns x
  | some (t, x), some T =>
      if t < T then .returns x else .raisesEmpty "No response received."
  | none, some _ => .raisesEmpty "No response received."
  | none, none => .blocksForever

/--
Embeds the polling loop of lines 56-61 for a finite timeout `T`, one loop
iteration per tick: while the elapsed time is below `T`, check
`response_queue.empty()` and pop the first item when one is present;
once the timeout elapses, raise `queue.Empty` with the message of line 61.
-/
def pollLoopFrom {α : Type} (arrival : Option (Nat × α)) (T : Nat) (now : Nat) :
    ReqOutcome α :=
  if _h : now < T then
    match arrival with
    | some (t, x) => if t ≤ now then .returns x else pollLoopFrom arrival T (now + 1)
    | none => pollLoopFrom arrival T (now + 1)
  else
    .raisesEmpty "No response received within the timeout period."
termination_by T - now
decreasing_by all_goals omega

/--
Embeds the wait-for-response part of the module-level `request` function
(threaded.py lines 48-61), after `device.write(payload)` has completed.
With `poll = false` it delegates to the blocking `Queue.get`; with
`poll = true` and `timeout_s = None` the very first evaluation of
`time.time() - start_time < timeout_s` raises `TypeError` before any queue
check; with `poll = true` and a finite timeout it runs the polling loop.
-/
def request {α : Type} (arrival : Option (Nat × α)) (timeout_s : Option Nat)
    (poll : Bool) : ReqOutcome α :=
  if poll = false then
    blockingGet arrival timeout_s
  else
    match timeout_s with
    | none => .raisesTypeError
    | some T => pollLoopFrom arrival T 0

/-! ## Embedding of the `KeepAliveReader` worker loop (threaded.py lines 98-254) -/

/-- Exceptions the worker can record on the `error` event. -/
inductive ExcKind where
  | nameError (portName : String)
  | serialException (msg : String)
  | otherException (msg : String)
deriving DecidableEq

/-- The event flags owned by a `KeepAliveReader`, plus the recorded cause. -/
structure KAState where
  connected : Bool
  close_request : Bool
  closed : Bool
  error : Bool
  has_connected : Bool
  errorExc : Option ExcKind
deriving DecidableEq

/--
State right after `__init__` and before `run` makes progress; `cr` is the
value of `close_request` (a caller may invoke `close` before the worker
starts).
-/
def initKAState (cr : Bool) : KAState :=
  { connected := false, close_request := cr, closed := false, error := false,
    has_connected := false, errorExc := none }

/-- Embeds `KeepAliveReader.close`: sets `close_request`, nothing else. -/
def close (s : KAState) : KAState :=
  { s with close_request := true }

/--
Control locations of `run`:
`start` is the initial port-availability check of lines 142-152;
`loopTop` the availability test of line 156; `portSleep` the
`close_request.wait(2)` and close check of lines 159-163; `openPort` the
`serial_for_url` call of lines 164-177; `waitConnect` the multiplexed wait
and close check of lines 186-194; `waitDisconnect` the disconnect wait and
close check of lines 196-203; `done` means `run` has returned.
-/
inductive PC where
  | start
  | loopTop
  | portSleep
  | openPort
  | waitConnect
  | waitDisconnect
  | done
deriving DecidableEq

structure Conf where
  pc : PC
  st : KAState
deriving DecidableEq

/--
Environment input consumed by one step of the worker:
`ports` is the result of `get_serial_ports` when the step queries it;
`closeNow` records whether `close` was invoked since the previous step;
`openExc` is the exception raised by `serial_for_url`, if any;
`protoConn` is `protocol.connected.is_set()` at the moment the connect
wait returns; `disconn` is `protocol.disconnected.is_set()` at the moment
the disconnect wait returns.
-/
structure Input where
  ports : List String
  closeNow : Bool
  openExc : Option ExcKind
  protoConn : Bool
  disconn : Bool

/--
Timeout passed to the connect wait, straight from line 186:
`None if self.has_connected.is_set() else self.default_timeout_s`.
`none` means the wait blocks until a source event of the multiplexer
fires.
-/
def connectWaitTimeout (s : KAState) (default_timeout_s : Option ℚ) : Option ℚ :=
  if s.has_connected then none else default_timeout_s

/--
The connect wait of line 186 can only return when a watched source fired
or a finite timeout was in force.
-/
def WaitConnectValid (s : KAState) (default_timeout_s : Option ℚ) (inp : Input) : Prop :=
  inp.protoConn = true ∨ inp.closeNow = true ∨ s.close_request = true
    ∨ connectWaitTimeout s default_timeout_s ≠ none

/--
One step of the worker loop of `KeepAliveReader.run`, driven by an
environment input.  `close_request` is first merged with `closeNow`
(`close` may be invoked by another thread at any time and only ever sets
the flag).  Each control location then performs exactly what the
corresponding source lines do.
-/
def stepRun (comport : String) (c : Conf) (inp : Input) : Conf :=
  let s : KAState := { c.st with close_request := c.st.close_request || inp.closeNow }
  match c.pc with
  | .start =>
      if comport ∈ inp.ports then
        { pc := .loopTop, st := s }
      else
        { pc := .done,
          st := { s with
                  errorExc := some (.nameError comport)
                  error := true
                  closed := true } }
  | .loopTop =>
      if comport ∈ inp.ports then
        { pc := .openPort, st := s }
      else
        { pc := .portSleep, st := s }
  | .portSleep =>
      if s.close_request then
        { pc := .done, st := { s with closed := true } }
      else
        { pc := .loopTop, st := s }
  | .openPort =>
      match inp.openExc with
      | some e =>
          { pc := .done,
            st := { s with errorExc := some e, error := true, closed := true } }
      | none => { pc := .waitConnect, st := s }
  | .waitConnect =>
      if s.close_request then
        { pc := .done, st := { s with closed := true } }
      else
        { pc := .waitDisconnect,
          st := { s with connected := true, has_connected := true } }
  | .waitDisconnect =>
      if s.close_request then
        { pc := .done, st := { s with closed := true } }
      else
        { pc := .loopTop, st := { s with connected := false } }
  | .done => { pc := .done, st := s }

/-- Iterate the worker over a list of environment inputs. -/
def runSteps (comport : String) (c : Conf) (inps : List Input) : Conf :=
  inps.foldl (stepRun comport) c

/-- Input for a step during which the environment does nothing special. -/
def inpQuiet : Input :=
  { ports := ["COM1"], closeNow := false, openExc := none, protoConn := false,
    disconn := false }

/-! ## Embedding of `KeepAliveReader.request` and `KeepAliveReader.write` -/

/--
Inputs of a `KeepAliveReader.request` call: the tick at which the manager
event `connected` becomes set, if ever; whether `self.protocol` is set;
and the response-queue arrival as in the module-level `request` model.
-/
structure KAReq where
  connectedAt : Option Nat
  hasProtocol : Bool
  arrival : Option (Nat × Nat)

/-- Outcome of a `KeepAliveReader.request` call. -/
inductive KAResult where
  | hangsInConnectWait
  | hangsInWriteWait
  | completes (wrote : Bool) (out : ReqOutcome Nat)
deriving DecidableEq

/--
Embeds `KeepAliveReader.write` invoked with its default
`timeout_s = None` (lines 206-225): `self.connected.wait(None)` returns
only if the `connected` event is ever set — `none` here means the call
blocks forever — and then the transport write happens exactly when
`self.protocol` is set.
-/
def kaWrite (m : KAReq) : Option Bool :=
  match m.connectedAt with
  | some _ => some m.hasProtocol
  | none => none

/--
Embeds `KeepAliveReader.request` (lines 227-251): first
`self.connected.wait(timeout_s)` — which blocks forever only when
`connected` is never set and `timeout_s` is `None` — then the module-level
`request` with `self` as the device, so that `device.write(payload)` is
`KeepAliveReader.write` with its default `timeout_s = None`, and finally
the chosen waiting discipline on the response queue.
-/
def kaRequest (m : KAReq) (timeout_s : Option Nat) (poll : Bool) : KAResult :=
  match m.connectedAt, timeout_s with
  | none, none => .hangsInConnectWait
  | _, _ =>
    match kaWrite m with
    | none => .hangsInWriteWait
    | some wrote => .completes wrote (request m.arrival timeout_s poll)

/-! ## Helper lemmas -/

theorem list_any_congr_on {β : Type} (l : List β) (f g : β → Bool)
    (h : ∀ x ∈ l, f x = g x) : l.any f = l.any g := by
  induction l with
  | nil => rfl
  | cons a t ih =>
      simp only [List.any_cons]
      rw [h a (by simp), ih (fun x hx => h x (by simp [hx]))]

theorem orValue_src_irrelevant {n m : Nat} (w : OrWorld n m) (j : Fin m) (i : Fin n)
    (b : Bool) (hi : i ∉ w.watch j) :
    orValue { w with src := Function.update w.src i b } j = orValue w j := by
  unfold orValue
  apply list_any_congr_on
  intro x hx
  have hxi : x ≠ i := fun hxi => hi (hxi ▸ hx)
  simp [Function.update_noteq hxi]

theorem OrEvent_tracks {n m : Nat} (w : OrWorld n m) (events : List (Fin n))
    (j : Fin m) : Tracks (OrEvent w events j) j := by
  constructor
  · intro i hi
    have hev : i ∈ events := by
      simpa [OrEvent, Function.update_same] using hi
    simp [OrEvent, hev]
  · simp only [OrEvent, orValue]
    simp [Function.update_same]

theorem runChanged_update_tracks {n m : Nat} (w : OrWorld n m) (j : Fin m)
    (i : Fin n) (b : Bool) (h : Tracks w j) :
    Tracks (runChanged { w with src := Function.update w.src i b } i) j := by
  obtain ⟨hcb, hder⟩ := h
  unfold runChanged
  cases hci : w.cb i with
  | none =>
      refine ⟨hcb, ?_⟩
      have hi : i ∉ w.watch j := fun hmem => by
        rw [hcb i hmem] at hci; exact Option.noConfusion hci
      calc (({ w with src := Function.update w.src i b } : OrWorld n m)).derived j
          = orValue w j := hder
        _ = orValue { w with src := Function.update w.src i b } j :=
            (orValue_src_irrelevant w j i b hi).symm
  | some j0 =>
      by_cases hj : j0 = j
      · subst hj
        refine ⟨hcb, ?_⟩
        simp [Function.update_same, orValue]
      · refine ⟨hcb, ?_⟩
        have hi : i ∉ w.watch j := fun hmem => by
          rw [hcb i hmem] at hci
          exact hj (Option.some.inj hci).symm
        have hne : j ≠ j0 := fun hh => hj hh.symm
        calc (Function.update
                (({ w with src := Function.update w.src i b } : OrWorld n m)).derived j0
                (orValue { w with src := Function.update w.src i b } j0)) j
            = w.derived j := Function.update_noteq hne _ _
          _ = orValue w j := hder
          _ = orValue { w with src := Function.update w.src i b } j :=
              (orValue_src_irrelevant w j i b hi).symm

theorem applyOp_tracks {n m : Nat} (w : OrWorld n m) (j : Fin m) (op : EvOp n)
    (h : Tracks w j) : Tracks (applyOp w op) j := by
  cases op with
  | set i => exact runChanged_update_tracks w j i true h
  | clear i => exact runChanged_update_tracks w j i false h

theorem applyOps_tracks {n m : Nat} (w : OrWorld n m) (j : Fin m)
    (ops : List (EvOp n)) (h : Tracks w j) : Tracks (applyOps w ops) j := by
  induction ops generalizing w with
  | nil => exact h
  | cons op t ih => exact ih (applyOp w op) (applyOp_tracks w j op h)

/-! ## Claim theorems -/

/--
Claim C1: for every multiplexer built by `OrEvent` over source events
`e1..eN`, after every sequence of set or clear operations on any source
events, the derived event flag equals the OR of the watched source flags;
each mutating call recomputes the derived event synchronously, so the
equality already holds in the state produced by the mutating operation
itself.
-/
theorem orEvent_tracks_sources {n m : Nat} (w : OrWorld n m)
    (events : List (Fin n)) (j : Fin m) (ops : List (EvOp n)) :
    (applyOps (OrEvent w events j) ops).derived j
      = orValue (applyOps (OrEvent w events j) ops) j :=
  (applyOps_tracks (OrEvent w events j) j ops (OrEvent_tracks w events j)).2

/--
Claim C2, evaluation at the failing input: after `OrEvent(e0, e1)` and then
`OrEvent(e2, e1)` over the shared source `e1`, setting `e1` updates only the
second derived event; the first derived event stays clear although the OR
of its sources is true, because the second `orify` overwrote the `changed`
callback of `e1`.
-/
theorem overlapping_orevent_stale :
    sharedWorld.derived 0 = false
    ∧ orValue sharedWorld 0 = true
    ∧ sharedWorld.derived 1 = true
    ∧ orValue sharedWorld 1 = true := by
  refine ⟨?_, ?_, ?_, ?_⟩ <;> decide

theorem protoStep_exclusive (s : EventProtocol) (e : TransportEvent) :
    ((protoStep s e).connected = true ∧ (protoStep s e).disconnected = false)
    ∨ ((protoStep s e).connected = false ∧ (protoStep s e).disconnected = true) := by
  cases e with
  | made p => exact Or.inl ⟨rfl, rfl⟩
  | lost => exact Or.inr ⟨rfl, rfl⟩

theorem foldl_protoStep_exclusive (s : EventProtocol) (e : TransportEvent)
    (rest : List TransportEvent) :
    ((List.foldl protoStep s (e :: rest)).connected = true
      ∧ (List.foldl protoStep s (e :: rest)).disconnected = false)
    ∨ ((List.foldl protoStep s (e :: rest)).connected = false
      ∧ (List.foldl protoStep s (e :: rest)).disconnected = true) := by
  induction rest generalizing s e with
  | nil => simpa using protoStep_exclusive s e
  | cons e2 t ih => simpa [List.foldl_cons] using ih (protoStep s e) e2

/--
Claim C9: once the adapter has processed at least one transport event, its
`connected` and `disconnected` events are never both set: after any
nonempty event sequence exactly one of the two is set, `connection_made`
leaves `connected` set and `disconnected` clear, and `connection_lost`
leaves `connected` clear and `disconnected` set.
-/
theorem eventProtocol_exclusive (evs : List TransportEvent) (h : evs ≠ []) :
    (¬((runProto evs).connected = true ∧ (runProto evs).disconnected = true))
    ∧ (((runProto evs).connected = true ∧ (runProto evs).disconnected = false)
        ∨ ((runProto evs).connected = false ∧ (runProto evs).disconnected = true))
    ∧ (∀ (s : EventProtocol) (p : String),
        (connection_made s p).connected = true
        ∧ (connection_made s p).disconnected = false)
    ∧ (∀ s : EventProtocol,
        (connection_lost s).connected = false
        ∧ (connection_lost s).disconnected = true) := by
  match evs, h with
  | e :: rest, _ =>
      have hx := foldl_protoStep_exclusive EventProtocol.init e rest
      refine ⟨?_, hx, fun s p => ⟨rfl, rfl⟩, fun s => ⟨rfl, rfl⟩⟩
      rcases hx with ⟨h1, h2⟩ | ⟨h1, h2⟩ <;>
        · intro hc
          simp_all [runProto]

/-- Claim C9 witness at the one-event sequence `connection_made("COM1")`. -/
theorem eventProtocol_exclusive_witness :
    ¬((runProto [TransportEvent.made "COM1"]).connected = true
      ∧ (runProto [TransportEvent.made "COM1"]).disconnected = true) :=
  (eventProtocol_exclusive [TransportEvent.made "COM1"] (by simp)).1

/--
Claim C6, evaluation at the failing input: with polling enabled (the
default on Windows) and the default `timeout_s = None`, the module-level
`request` raises `TypeError` from `time.time() - start_time < None` even
when a response is already available, instead of blocking until the
response is ready; the blocking discipline on the same input returns the
first item as documented.
-/
theorem request_poll_default_timeout_crashes :
    request (some (0, (7 : Nat))) none true = ReqOutcome.raisesTypeError
    ∧ request (none : Option (Nat × Nat)) none true = ReqOutcome.raisesTypeError
    ∧ request (some (0, (7 : Nat))) none false = ReqOutcome.returns 7 := by
  refine ⟨rfl, rfl, rfl⟩

theorem stepRun_close_request_mono (comport : String) (c : Conf) (inp : Input)
    (h : c.st.close_request = true) :
    (stepRun comport c inp).st.close_request = true := by
  obtain ⟨pc, st⟩ := c
  simp only [stepRun] at *
  cases pc <;> simp_all <;> split <;> simp_all

theorem runSteps_close_request_mono (comport : String) (c : Conf)
    (inps : List Input) (h : c.st.close_request = true) :
    (runSteps comport c inps).st.close_request = true := by
  induction inps generalizing c with
  | nil => exact h
  | cons i t ih =>
      exact ih (stepRun comport c i) (stepRun_close_request_mono comport c i h)

theorem runSteps_done (comport : String) (s : KAState) (inps : List Input) :
    (runSteps comport { pc := PC.done, st := s } inps).pc = PC.done
    ∧ (runSteps comport { pc := PC.done, st := s } inps).st.connected = s.connected
    ∧ (runSteps comport { pc := PC.done, st := s } inps).st.closed = s.closed
    ∧ (runSteps comport { pc := PC.done, st := s } inps).st.error = s.error
    ∧ (runSteps comport { pc := PC.done, st := s } inps).st.errorExc = s.errorExc := by
  induction inps generalizing s with
  | nil => exact ⟨rfl, rfl, rfl, rfl, rfl⟩
  | cons i t ih =>
      have hstep : runSteps comport { pc := PC.done, st := s } (i :: t)
          = runSteps comport
              { pc := PC.done,
                st := { s with close_request := s.close_request || i.closeNow } } t := rfl
      rw [hstep]
      exact ih { s with close_request := s.close_request || i.closeNow }

/--
Claim C5: `close` sets `close_request` and no step of the worker loop, in
any of its control locations, ever clears it: once set, it is still set
after any further sequence of worker steps (the merge with `closeNow`
only ever turns the flag on).
-/
theorem close_request_monotonic :
    (∀ s : KAState, ( close s).close_request = true)
    ∧ ∀ (comport : String) (c : Conf) (inps : List Input),
        c.st.close_request = true →
        (runSteps comport c inps).st.close_request = true :=
  ⟨fun _ => rfl, fun comport c inps h => runSteps_close_request_mono comport c inps h⟩

/-- Claim C5 witness: a worker started after `close` keeps the flag set. -/
theorem close_request_monotonic_witness :
    (initKAState true).close_request = true
    ∧ (runSteps "COM1" { pc := PC.start, st := initKAState true }
        [inpQuiet, inpQuiet]).st.close_request = true :=
  ⟨rfl, close_request_monotonic.2 "COM1" { pc := PC.start, st := initKAState true }
    [inpQuiet, inpQuiet] rfl⟩

/--
Claim C7: if the target port is absent from the initial enumeration, the
worker immediately records the `NameError` cause on the `error` event,
sets `error` and `closed`, and returns: the very first step lands on
`done` with `connected` still clear, and every later step stays on `done`
with `connected` still clear — the retry-poll loop is never entered.
-/
theorem port_absent_fail_fast (comport : String) (cr : Bool) (inp : Input)
    (inps : List Input) (h : comport ∉ inp.ports) :
    stepRun comport { pc := PC.start, st := initKAState cr } inp
      = { pc := PC.done,
          st := { connected := false, close_request := cr || inp.closeNow,
                  closed := true, error := true, has_connected := false,
                  errorExc := some (ExcKind.nameError comport) } }
    ∧ (runSteps comport
        (stepRun comport { pc := PC.start, st := initKAState cr } inp) inps).pc
        = PC.done
    ∧ (runSteps comport
        (stepRun comport { pc := PC.start, st := initKAState cr } inp) inps).st.connected
        = false
    ∧ (runSteps comport
        (stepRun comport { pc := PC.start, st := initKAState cr } inp) inps).st.error
        = true := by
  have hstep : stepRun comport { pc := PC.start, st := initKAState cr } inp
      = { pc := PC.done,
          st := { connected := false, close_request := cr || inp.closeNow,
                  closed := true, error := true, has_connected := false,
                  errorExc := some (ExcKind.nameError comport) } } := by
    simp [stepRun, initKAState, h]
  rw [hstep]
  have hd := runSteps_done comport
    { connected := false, close_request := cr || inp.closeNow, closed := true,
      error := true, has_connected := false,
      errorExc := some (ExcKind.nameError comport) } inps
  exact ⟨rfl, hd.1, hd.2.1, hd.2.2.2.1⟩

/-- Claim C7 witness: port `COM9` absent from the enumeration `[COM1]`. -/
theorem port_absent_fail_fast_witness :
    ("COM9" ∉ inpQuiet.ports)
    ∧ (runSteps "COM9"
        (stepRun "COM9" { pc := PC.start, st := initKAState false } inpQuiet)
        [inpQuiet]).st.connected = false :=
  ⟨by simp [inpQuiet],
   (port_absent_fail_fast "COM9" false inpQuiet [inpQuiet] (by simp [inpQuiet])).2.2.1⟩

/--
Claim C8: any exception raised by `serial_for_url` is terminal for the
manager: the worker records the cause on the `error` event, sets `error`
and `closed` and returns; the step lands on `done` and every later step
stays on `done` with the cause still attached — it never loops back to
waiting for the port.
-/
theorem open_failure_terminal (comport : String) (st : KAState) (inp : Input)
    (e : ExcKind) (inps : List Input) (hexc : inp.openExc = some e) :
    stepRun comport { pc := PC.openPort, st := st } inp
      = { pc := PC.done,
          st := { st with
                  close_request := st.close_request || inp.closeNow
                  errorExc := some e
                  error := true
                  closed := true } }
    ∧ (runSteps comport
        (stepRun comport { pc := PC.openPort, st := st } inp) inps).pc = PC.done
    ∧ (runSteps comport
        (stepRun comport { pc := PC.openPort, st := st } inp) inps).st.errorExc
        = some e
    ∧ (runSteps comport
        (stepRun comport { pc := PC.openPort, st := st } inp) inps).st.closed
        = true := by
  have hstep : stepRun comport { pc := PC.openPort, st := st } inp
      = { pc := PC.done,
          st := { st with
                  close_request := st.close_request || inp.closeNow
                  errorExc := some e
                  error := true
                  closed := true } } := by
    simp [stepRun, hexc]
  rw [hstep]
  have hd := runSteps_done comport
    { st with
      close_request := st.close_request || inp.closeNow
      errorExc := some e
      error := true
      closed := true } inps
  exact ⟨rfl, hd.1, hd.2.2.2.2, hd.2.2.1⟩

/-- Claim C8 witness: `serial_for_url` raising a `SerialException`. -/
theorem open_failure_terminal_witness :
    ({ inpQuiet with
       openExc := some (ExcKind.serialException "could not open port") } : Input).openExc
      = some (ExcKind.serialException "could not open port")
    ∧ (runSteps "COM1"
        (stepRun "COM1" { pc := PC.openPort, st := initKAState false }
          { inpQuiet with
            openExc := some (ExcKind.serialException "could not open port") })
        [inpQuiet]).st.errorExc
        = some (ExcKind.serialException "could not open port") :=
  ⟨rfl,
   (open_failure_terminal "COM1" (initKAState false)
     { inpQuiet with
       openExc := some (ExcKind.serialException "could not open port") }
     (ExcKind.serialException "could not open port") [inpQuiet] rfl).2.2.1⟩

/--
Claim C3 counterexample: on a reconnection attempt — `has_connected` set —
the connect wait of line 186 is issued with timeout `None` (block
indefinitely), not with the configured default timeout of 5 seconds as the
claim states.
-/
theorem reconnect_timeout_cex :
    ({ initKAState false with has_connected := true } : KAState).has_connected = true
    ∧ connectWaitTimeout { initKAState false with has_connected := true } (some 5)
        = none
    ∧ connectWaitTimeout { initKAState false with has_connected := true } (some 5)
        ≠ some 5 := by
  refine ⟨rfl, rfl, ?_⟩
  simp [connectWaitTimeout, initKAState]

/--
Claim C3 amended: the connect wait uses the configured default timeout
only on the first connection attempt — blocking indefinitely when none was
configured — while on every subsequent reconnection attempt (once
`has_connected` is set) it is issued with no timeout at all and blocks
indefinitely regardless of the configured value; moreover, when the wait
returns with close not requested the worker proceeds (marking the manager
connected) rather than re-issuing the wait in a loop.
-/
theorem connect_wait_timeout_policy (comport : String) (s : KAState)
    (dflt : Option ℚ) (inp : Input)
    (hcr : s.close_request = false) (hcn : inp.closeNow = false) :
    (s.has_connected = false → connectWaitTimeout s dflt = dflt)
    ∧ (s.has_connected = true → connectWaitTimeout s dflt = none)
    ∧ stepRun comport { pc := PC.waitConnect, st := s } inp
        = { pc := PC.waitDisconnect,
            st := { s with connected := true, has_connected := true } } := by
  refine ⟨fun hc => by simp [connectWaitTimeout, hc],
          fun hc => by simp [connectWaitTimeout, hc], ?_⟩
  obtain ⟨sc, scr, scl, serr, shc, sex⟩ := s
  simp only at hcr
  subst hcr
  simp [stepRun, hcn]

/-- Claim C3 amended witness: first attempt with a configured timeout. -/
theorem connect_wait_timeout_policy_witness :
    (initKAState false).close_request = false
    ∧ inpQuiet.closeNow = false
    ∧ (initKAState false).has_connected = false
    ∧ connectWaitTimeout (initKAState false) (some 5) = some 5 :=
  ⟨rfl, rfl, rfl,
   (connect_wait_timeout_policy "COM1" (initKAState false) (some 5) inpQuiet
     rfl rfl).1 rfl⟩

/--
Claim C4 counterexample: a run reaches the connect wait in the initial
state; with a finite configured timeout of 5 seconds the wait may return by
timing out, with the adapter event `protocol.connected` still clear and
close not requested — and the worker step nevertheless sets the manager
`connected` event.
-/
theorem connected_mirror_cex :
    runSteps "COM1" { pc := PC.start, st := initKAState false }
        [inpQuiet, inpQuiet, inpQuiet]
      = { pc := PC.waitConnect, st := initKAState false }
    ∧ WaitConnectValid (initKAState false) (some 5) inpQuiet
    ∧ inpQuiet.protoConn = false
    ∧ (initKAState false).close_request = false
    ∧ inpQuiet.closeNow = false
    ∧ (stepRun "COM1" { pc := PC.waitConnect, st := initKAState false }
        inpQuiet).st.connected = true := by
  refine ⟨by decide, ?_, rfl, rfl, rfl, by decide⟩
  exact Or.inr (Or.inr (Or.inr (by simp [connectWaitTimeout, initKAState])))

/--
Claim C4 amended: the manager `connected` event mirrors the adapter only
when no finite timeout is in force on the connect wait: if the wait was
issued with timeout `None` and returns with close not requested, the
adapter event `protocol.connected` is set at that moment and the worker
sets the manager `connected` event; with a finite first-attempt timeout
the wait may instead time out, and the worker then sets the manager
`connected` event while the adapter has not connected.
-/
theorem connected_mirror_no_timeout (comport : String) (s : KAState)
    (dflt : Option ℚ) (inp : Input)
    (hv : WaitConnectValid s dflt inp)
    (ht : connectWaitTimeout s dflt = none)
    (hcr : s.close_request = false) (hcn : inp.closeNow = false) :
    inp.protoConn = true
    ∧ (stepRun comport { pc := PC.waitConnect, st := s } inp).st.connected
        = true := by
  have hpc : inp.protoConn = true := by
    rcases hv with h | h | h | h
    · exact h
    · rw [hcn] at h; exact absurd h (by simp)
    · rw [hcr] at h; exact absurd h (by simp)
    · exact absurd ht h
  refine ⟨hpc, ?_⟩
  simp [stepRun, hcr, hcn]

/-- Claim C4 amended witness: subsequent attempt, adapter connect fired. -/
theorem connected_mirror_no_timeout_witness :
    WaitConnectValid { initKAState false with has_connected := true } none
      { inpQuiet with protoConn := true }
    ∧ ({ inpQuiet with protoConn := true } : Input).protoConn = true
    ∧ (stepRun "COM1"
        { pc := PC.waitConnect,
          st := { initKAState false with has_connected := true } }
        { inpQuiet with protoConn := true }).st.connected = true :=
  ⟨Or.inl rfl,
   (connected_mirror_no_timeout "COM1"
     { initKAState false with has_connected := true } none
     { inpQuiet with protoConn := true } (Or.inl rfl) rfl rfl rfl).1,
   (connected_mirror_no_timeout "COM1"
     { initKAState false with has_connected := true } none
     { inpQuiet with protoConn := true } (Or.inl rfl) rfl rfl rfl).2⟩

theorem pollLoopFrom_ne_blocksForever {α : Type} (arrival : Option (Nat × α))
    (T : Nat) :
    ∀ (k now : Nat), T - now ≤ k →
      pollLoopFrom arrival T now ≠ ReqOutcome.blocksForever := by
  intro k
  induction k with
  | zero =>
      intro now h
      rw [pollLoopFrom.eq_def]
      have hnl : ¬ now < T := by omega
      simp [hnl]
  | succ k ih =>
      intro now h
      rw [pollLoopFrom.eq_def]
      by_cases hlt : now < T
      · cases arrival with
        | none =>
            simpa [hlt] using ih (now + 1) (by omega)
        | some p =>
            obtain ⟨t, x⟩ := p
            by_cases ht : t ≤ now
            · simp [hlt, ht]
            · simpa [hlt, ht] using ih (now + 1) (by omega)
      · simp [hlt]

theorem request_finite_timeout_ne_blocks {α : Type} (arrival : Option (Nat × α))
    (T : Nat) (poll : Bool) :
    request arrival (some T) poll ≠ ReqOutcome.blocksForever := by
  unfold request
  by_cases hp : poll = false
  · cases arrival with
    | none => simp [hp, blockingGet]
    | some p =>
        obtain ⟨t, x⟩ := p
        by_cases ht : t < T <;> simp [hp, blockingGet, ht]
  · simpa [hp] using pollLoopFrom_ne_blocksForever arrival T (T - 0) 0 le_rfl

/--
Claim C10 counterexample: with a caller-supplied timeout of 1 and a
response already queued, but the manager `connected` event never set, the
call blocks forever inside the write step — `device.write` is
`KeepAliveReader.write` with its default `timeout_s = None`, which re-waits
on `connected` with no timeout — so the whole call is not bounded by the
caller-supplied timeout.
-/
theorem ka_request_unbounded_cex :
    kaRequest { connectedAt := none, hasProtocol := true, arrival := some (0, 7) }
      (some 1) false = KAResult.hangsInWriteWait := rfl

/--
Claim C10 amended: `KeepAliveReader.request` waits on `connected` for at
most `timeout_s` and performs write-then-wait-for-response with the
payload written before the response wait, but the write step re-waits on
`connected` with no timeout: when `connected` is eventually set the call
completes with the response wait bounded by the finite `timeout_s` (never
blocking in the queue wait), while when `connected` is never set the call
blocks forever in the write step despite the finite `timeout_s`.
-/
theorem ka_request_write_rewaits (m : KAReq) (T : Nat) (poll : Bool) (c : Nat)
    (h : m.connectedAt = some c) :
    kaRequest m (some T) poll
      = KAResult.completes m.hasProtocol (request m.arrival (some T) poll)
    ∧ request m.arrival (some T) poll ≠ ReqOutcome.blocksForever
    ∧ ∀ m' : KAReq, m'.connectedAt = none →
        kaRequest m' (some T) poll = KAResult.hangsInWriteWait := by
  refine ⟨?_, request_finite_timeout_ne_blocks m.arrival T poll, ?_⟩
  · simp [kaRequest, kaWrite, h]
  · intro m' h'
    simp [kaRequest, kaWrite, h']

/-- Claim C10 amended witness: connected fires, response already queued. -/
theorem ka_request_write_rewaits_witness :
    ({ connectedAt := some 0, hasProtocol := true,
       arrival := some (0, 7) } : KAReq).connectedAt = some 0
    ∧ kaRequest
        { connectedAt := some 0, hasProtocol := true, arrival := some (0, 7) }
        (some 2) false
      = KAResult.completes true (request (some (0, 7)) (some 2) false) :=
  ⟨rfl,
   (ka_request_write_rewaits
     { connectedAt := some 0, hasProtocol := true, arrival := some (0, 7) }
     2 false 0 rfl).1⟩

end SerialDevice
